import Mathlib

/-!
Shallow embedding of the startup configuration resolver of falco
(userspace/falco/configuration.cpp), together with theorems settling the
specification claims about it.

The embedding keeps the source's structure: the rules-file resolution
(`falco_configuration::init` lines 70-82 and `read_rules_file_directory`),
the command-line override applier (`split`, `set_cmdline_option`,
`init_cmdline_options`), the event-drop action set builder, the output sink
selection, the `metadata_download.max_mb` validation, and the plugin
allow-list filter.  Process termination (`exit(-1)`) and thrown
`logic_error`s are modelled with `Option`/`Except`.  The opaque YAML store
(`yaml_configuration`, not part of the examined sources) is modelled from
the spec as a key-addressable store with get-with-default semantics.
-/

namespace Falco

/-- Linux file-mode type constants from sys/stat.h.  The source tests
`st.st_mode & S_IFDIR` and `st.st_mode & S_IFREG` directly with bitwise and,
so the embedding keeps `st_mode` as a natural number and uses the same
masks. -/
def S_IFMT : Nat := 0o170000

/-- Directory bit pattern (sys/stat.h). -/
def S_IFDIR : Nat := 0o040000

/-- Regular-file bit pattern (sys/stat.h). -/
def S_IFREG : Nat := 0o100000

/-- FIFO bit pattern (sys/stat.h). -/
def S_IFIFO : Nat := 0o010000

/-- Socket bit pattern (sys/stat.h).  Note `S_IFSOCK &&& S_IFREG ≠ 0` and
`S_IFSOCK &&& S_IFDIR ≠ 0`: a socket passes both of the source's mode
tests. -/
def S_IFSOCK : Nat := 0o140000

/-- Block-device bit pattern (sys/stat.h). -/
def S_IFBLK : Nat := 0o060000

/-- Character-device bit pattern (sys/stat.h). -/
def S_IFCHR : Nat := 0o020000

/-- The POSIX `S_ISREG` test: a path is a regular file exactly when the
file-type field of its mode equals `S_IFREG`.  Used to state what "regular
file" means, independently of the source's weaker bitmask test. -/
abbrev S_ISREG (m : Nat) : Prop := m &&& S_IFMT = S_IFREG

/-- The POSIX `S_ISDIR` test: true directories. -/
abbrev S_ISDIR (m : Nat) : Prop := m &&& S_IFMT = S_IFDIR

/-- Environment model for the filesystem calls made by the resolver:
`stat` returns the `st_mode` of an existing path (`none` when `stat`
fails, i.e. the path does not exist), and `readdir` returns the immediate
entry names of a path that `opendir` can open (`none` when `opendir`
fails). -/
structure filesystem where
  stat : String → Option Nat
  readdir : String → Option (List String)

/-- Lexicographic order on paths, as `std::sort` over `std::string`
compares character sequences. -/
def path_le (a b : String) : Prop := a.data ≤ b.data

instance : DecidableRel path_le := fun a b => inferInstanceAs (Decidable (a.data ≤ b.data))

instance : IsTotal String path_le := ⟨fun a b => le_total a.data b.data⟩

instance : IsTrans String path_le := ⟨fun _ _ _ h1 h2 => le_trans h1 h2⟩

/-- The entry-scanning loop in `read_rules_file_directory` (lines 335-351):
for each directory entry name, build `path + "/" + name`, `stat` it
(failure terminates the process, modelled by `none`), and collect it when
`st_mode & S_IFREG` is non-zero. -/
def scan_dir_entries (fs : filesystem) (path : String) : List String → Option (List String)
  | [] => some []
  | n :: ns =>
    match fs.stat (path ++ "/" ++ n) with
    | none => none
    | some m =>
      match scan_dir_entries fs path ns with
      | none => none
      | some rest => some (if m &&& S_IFREG ≠ 0 then (path ++ "/" ++ n) :: rest else rest)

/-- `falco_configuration::read_rules_file_directory` (lines 308-370).
`stat` failure or `opendir` failure terminates the process (`exit(-1)`),
modelled by `none`.  When `st_mode & S_IFDIR` is non-zero the directory is
scanned, the collected entries are sorted and appended; otherwise the path
itself is appended. -/
def read_rules_file_directory (fs : filesystem) (path : String) (rules_filenames : List String) :
    Option (List String) :=
  match fs.stat path with
  | none => none
  | some st =>
    if st &&& S_IFDIR ≠ 0 then
      match fs.readdir path with
      | none => none
      | some ents =>
        match scan_dir_entries fs path ents with
        | none => none
        | some dir_filenames =>
          some (rules_filenames ++ List.insertionSort path_le dir_filenames)
    else
      some (rules_filenames ++ [path])

/-- The rules-file loop of `falco_configuration::init` (lines 74-82): each
configured entry is `stat`-ed; entries for which `stat` fails are skipped,
the rest are resolved with `read_rules_file_directory`, accumulating into
one flat list. -/
def load_rules_filenames_loop (fs : filesystem) :
    List String → List String → Option (List String)
  | [], fns => some fns
  | file :: files, fns =>
    if (fs.stat file).isSome then
      match read_rules_file_directory fs file fns with
      | none => none
      | some fns' => load_rules_filenames_loop fs files fns'
    else
      load_rules_filenames_loop fs files fns

/-- The complete rules-file resolution, starting from the empty
accumulated list as `init` does. -/
def load_rules_filenames (fs : filesystem) (rules_files : List String) : Option (List String) :=
  load_rules_filenames_loop fs rules_files []

deriving instance DecidableEq for Except

/-- One constructor per `throw logic_error` site of the embedded code, so
the theorems can distinguish which validation failed. -/
inductive config_error where
  | malformed_option (opt : List Char)
  | no_filename
  | no_program
  | no_url
  | no_outputs
  | unknown_drop_action (act : String)
  | ignore_conflict (act : String)
  | metadata_max_mb_too_big
deriving DecidableEq

/-- Modelled from the spec: the raw configuration document
(`yaml_configuration`, whose implementation is outside the examined
sources) is an opaque tree addressable by dot-separated path; for the
override applier only "set scalar at path" and "read back" matter, so it
is a partial map from paths to scalar values. -/
def raw_document : Type := List Char → Option (List Char)

/-- Modelled from the spec: `yaml_configuration::set_scalar` writes the
value at the dot-path, overwriting any existing value. -/
def set_scalar (d : raw_document) (key val : List Char) : raw_document :=
  fun k => if k = key then some val else d k

/-- The file-local `split` helper (lines 372-384): find the first
occurrence of the delimiter; `none` when absent, otherwise the part before
and the part after it. -/
def split : List Char → Char → Option (List Char × List Char)
  | [], _ => none
  | c :: cs, delim =>
    if c = delim then some ([], cs)
    else (split cs delim).map (fun p => (c :: p.1, p.2))

/-- `falco_configuration::set_cmdline_option` (lines 394-404): split the
option at `'='`; failure to split throws, success writes the scalar. -/
def set_cmdline_option (d : raw_document) (opt : List Char) : Except config_error raw_document :=
  match split opt '=' with
  | none => .error (.malformed_option opt)
  | some keyval => .ok (set_scalar d keyval.1 keyval.2)

/-- `falco_configuration::init_cmdline_options` (lines 386-392): apply each
override in order; the first failure aborts. -/
def init_cmdline_options (d : raw_document) : List (List Char) → Except config_error raw_document
  | [] => .ok d
  | opt :: opts =>
    match set_cmdline_option d opt with
    | .error e => .error e
    | .ok d' => init_cmdline_options d' opts

/-- The event-drop response actions (`syscall_evt_drop_action`). -/
inductive syscall_evt_drop_action where
  | IGNORE
  | LOG
  | ALERT
  | EXIT
deriving DecidableEq

/-- One iteration of the action-parsing loop in `falco_configuration::init`
(lines 214-244): `ignore` and `exit` insert unconditionally; `log` and
`alert` throw when `IGNORE` is already in the set, and insert otherwise;
anything else throws. -/
def drop_action_step (s : Finset syscall_evt_drop_action) (act : String) :
    Except config_error (Finset syscall_evt_drop_action) :=
  if act = "ignore" then
    .ok (insert syscall_evt_drop_action.IGNORE s)
  else if act = "log" then
    if syscall_evt_drop_action.IGNORE ∈ s then .error (.ignore_conflict act)
    else .ok (insert syscall_evt_drop_action.LOG s)
  else if act = "alert" then
    if syscall_evt_drop_action.IGNORE ∈ s then .error (.ignore_conflict act)
    else .ok (insert syscall_evt_drop_action.ALERT s)
  else if act = "exit" then
    .ok (insert syscall_evt_drop_action.EXIT s)
  else
    .error (.unknown_drop_action act)

/-- The action-parsing loop over the configured sequence. -/
def build_drop_actions_loop (s : Finset syscall_evt_drop_action) :
    List String → Except config_error (Finset syscall_evt_drop_action)
  | [] => .ok s
  | act :: rest =>
    match drop_action_step s act with
    | .error e => .error e
    | .ok s' => build_drop_actions_loop s' rest

/-- The full drop-action set construction (lines 211-249): run the loop
from the empty set, then default an empty result to `{IGNORE}`. -/
def build_drop_actions (acts : List String) : Except config_error (Finset syscall_evt_drop_action) :=
  match build_drop_actions_loop ∅ acts with
  | .error e => .error e
  | .ok s => .ok (if s = ∅ then {syscall_evt_drop_action.IGNORE} else s)

/-- Modelled from the spec: the typed read interface of
`yaml_configuration` — "get scalar with default" over an opaque
key-addressable store, kept as one partial map per scalar type. -/
structure yaml_configuration where
  bool_scalars : String → Option Bool
  string_scalars : String → Option String

/-- Modelled from the spec: `get_scalar<bool>(key, default_value)`. -/
def get_scalar_bool (c : yaml_configuration) (key : String) (default_value : Bool) : Bool :=
  (c.bool_scalars key).getD default_value

/-- Modelled from the spec: `get_scalar<string>(key, default_value)`. -/
def get_scalar_string (c : yaml_configuration) (key : String) (default_value : String) : String :=
  (c.string_scalars key).getD default_value

/-- `falco::outputs::config`: a sink name plus its options map (kept as an
association list in insertion order). -/
structure outputs_config where
  name : String
  options : List (String × String)
deriving DecidableEq

/-- The `file_output` block (lines 88-104): when enabled, an empty
`filename` throws; otherwise the sink carries `filename` and `keep_alive`. -/
def file_output_sink (c : yaml_configuration) : Except config_error (List outputs_config) :=
  if get_scalar_bool c "file_output.enabled" false then
    let filename := get_scalar_string c "file_output.filename" ""
    if filename = "" then .error .no_filename
    else
      let keep_alive := get_scalar_string c "file_output.keep_alive" ""
      .ok [⟨"file", [("filename", filename), ("keep_alive", keep_alive)]⟩]
  else .ok []

/-- The `stdout_output` block (lines 106-111). -/
def stdout_output_sink (c : yaml_configuration) : List outputs_config :=
  if get_scalar_bool c "stdout_output.enabled" false then [⟨"stdout", []⟩] else []

/-- The `syslog_output` block (lines 113-118). -/
def syslog_output_sink (c : yaml_configuration) : List outputs_config :=
  if get_scalar_bool c "syslog_output.enabled" false then [⟨"syslog", []⟩] else []

/-- The `program_output` block (lines 120-136). -/
def program_output_sink (c : yaml_configuration) : Except config_error (List outputs_config) :=
  if get_scalar_bool c "program_output.enabled" false then
    let program := get_scalar_string c "program_output.program" ""
    if program = "" then .error .no_program
    else
      let keep_alive := get_scalar_string c "program_output.keep_alive" ""
      .ok [⟨"program", [("program", program), ("keep_alive", keep_alive)]⟩]
  else .ok []

/-- The `http_output` block (lines 138-156). -/
def http_output_sink (c : yaml_configuration) : Except config_error (List outputs_config) :=
  if get_scalar_bool c "http_output.enabled" false then
    let url := get_scalar_string c "http_output.url" ""
    if url = "" then .error .no_url
    else
      let user_agent := get_scalar_string c "http_output.user_agent" "falcosecurity/falco"
      .ok [⟨"http", [("url", url), ("user_agent", user_agent)]⟩]
  else .ok []

/-- The `grpc_output` block (lines 170-176): the sink is added only when
`grpc_output.enabled` (default true) and the global `grpc.enabled`
(default false, line 158) are both true. -/
def grpc_output_sink (c : yaml_configuration) : List outputs_config :=
  if get_scalar_bool c "grpc_output.enabled" true && get_scalar_bool c "grpc.enabled" false then
    [⟨"grpc", []⟩]
  else []

/-- The output-sink portion of `falco_configuration::init` (lines 88-181):
the six sinks are evaluated in the fixed order file, stdout, syslog,
program, http, grpc — the first throwing block aborts — and an empty
resulting list throws the no-outputs error. -/
def build_outputs (c : yaml_configuration) : Except config_error (List outputs_config) :=
  match file_output_sink c with
  | .error e => .error e
  | .ok l1 =>
    match program_output_sink c with
    | .error e => .error e
    | .ok l4 =>
      match http_output_sink c with
      | .error e => .error e
      | .ok l5 =>
        let outs := l1 ++ stdout_output_sink c ++ syslog_output_sink c ++ l4 ++ l5 ++
          grpc_output_sink c
        if outs.length = 0 then .error .no_outputs else .ok outs

/-- The `metadata_download.max_mb` validation (lines 266-270): values
greater than 1024 throw. -/
def check_metadata_download_max_mb (max_mb : Nat) : Except config_error Nat :=
  if 1024 < max_mb then .error .metadata_max_mb_too_big else .ok max_mb

/-- `falco_configuration::plugin_config`; the fields besides the name are
opaque pass-through values. -/
structure plugin_config where
  m_name : String
  m_library_path : String
  m_init_config : String
  m_open_params : String
deriving DecidableEq

/-- The plugin filtering loop of `falco_configuration::init` (lines
278-305).  `load_plugins_node` is `none` when the `load_plugins` key is
absent (`is_defined` false) and `some allow` when present with value
`allow` — so an absent key retains every plugin, while a present key
(even an empty sequence) retains exactly the plugins whose name is in the
allow-list. -/
def filter_plugin_configs (load_plugins_node : Option (List String))
    (plugins : List plugin_config) : List plugin_config :=
  let load_plugins_node_defined := load_plugins_node.isSome
  let load_plugins := load_plugins_node.getD []
  plugins.filter (fun p => !load_plugins_node_defined || load_plugins.contains p.m_name)

/-- Concrete filesystem: directory "d" whose immediate entries are the two
directory links ".", "..", the unix socket "d/s" (mode 0o140755) and the
regular file "d/a" (mode 0o100644). -/
def fs_socket_dir : filesystem where
  stat := fun p =>
    if p = "d" then some 0o040755
    else if p = "d/." then some 0o040755
    else if p = "d/.." then some 0o040755
    else if p = "d/a" then some 0o100644
    else if p = "d/s" then some 0o140755
    else none
  readdir := fun p => if p = "d" then some [".", "..", "s", "a"] else none

/-- Concrete filesystem: "s" is a unix socket (mode 0o140755) and "f" is a
FIFO (mode 0o010644), both configured directly; `opendir` fails on both,
and every other path does not exist. -/
def fs_socket_direct : filesystem where
  stat := fun p =>
    if p = "s" then some 0o140755
    else if p = "f" then some 0o010644
    else none
  readdir := fun _ => none

/-- Configuration document with no key set: every scalar resolves to its
default value. -/
def default_yaml : yaml_configuration where
  bool_scalars := fun _ => none
  string_scalars := fun _ => none

/-- Configuration document with only `stdout_output.enabled=true` set. -/
def stdout_only_yaml : yaml_configuration where
  bool_scalars := fun k => if k = "stdout_output.enabled" then some true else none
  string_scalars := fun _ => none

/-- Raw document with no value at any path. -/
def empty_document : raw_document := fun _ => none

/-- Claim C1: drop-action set building is order-dependent and asymmetric.
Encountering "log" or "alert" when IGNORE is already in the set throws the
mutual-exclusion error; "ignore" is always accepted no matter what the set
holds; "exit" is always accepted; the sequence ["ignore","log"] fails while
["log","alert"] succeeds with the set containing LOG and ALERT. -/
theorem C1_drop_action_order_dependent (s : Finset syscall_evt_drop_action) :
    (syscall_evt_drop_action.IGNORE ∈ s →
      drop_action_step s "log" = .error (.ignore_conflict "log") ∧
      drop_action_step s "alert" = .error (.ignore_conflict "alert")) ∧
    drop_action_step s "ignore" = .ok (insert syscall_evt_drop_action.IGNORE s) ∧
    drop_action_step s "exit" = .ok (insert syscall_evt_drop_action.EXIT s) ∧
    build_drop_actions ["ignore", "log"] = .error (.ignore_conflict "log") ∧
    build_drop_actions ["log", "alert"] =
      .ok {syscall_evt_drop_action.LOG, syscall_evt_drop_action.ALERT} := by
  refine ⟨fun h => ⟨?_, ?_⟩, ?_, ?_, ?_, ?_⟩
  · simp [drop_action_step, h]
  · simp [drop_action_step, h]
  · simp [drop_action_step]
  · simp [drop_action_step]
  · simp [build_drop_actions, build_drop_actions_loop, drop_action_step]
  · simp [build_drop_actions, build_drop_actions_loop, drop_action_step, Finset.pair_comm]

/-- Witness for C1: the hypothesis is discharged at the singleton set
containing IGNORE. -/
theorem C1_drop_action_order_dependent_witness :
    drop_action_step {syscall_evt_drop_action.IGNORE} "log" =
      .error (.ignore_conflict "log") :=
  ((C1_drop_action_order_dependent {syscall_evt_drop_action.IGNORE}).1
    (Finset.mem_singleton_self _)).1

/-- Claim C4: the metadata_download.max_mb validation accepts every value
up to and including 1024 and rejects every strictly greater value; 2000
fails while 500 succeeds. -/
theorem C4_metadata_max_mb_bound (m : Nat) :
    (m ≤ 1024 → check_metadata_download_max_mb m = .ok m) ∧
    (1024 < m → check_metadata_download_max_mb m = .error .metadata_max_mb_too_big) ∧
    check_metadata_download_max_mb 1024 = .ok 1024 ∧
    check_metadata_download_max_mb 2000 = .error .metadata_max_mb_too_big ∧
    check_metadata_download_max_mb 500 = .ok 500 := by
  refine ⟨fun h => ?_, fun h => ?_, by decide, by decide, by decide⟩
  · simp [check_metadata_download_max_mb, Nat.not_lt.mpr h]
  · simp [check_metadata_download_max_mb, h]

/-- Witness for C4: the two implications discharged at the boundary value
and just above it. -/
theorem C4_metadata_max_mb_bound_witness :
    check_metadata_download_max_mb 1024 = .ok 1024 ∧
    check_metadata_download_max_mb 1025 = .error .metadata_max_mb_too_big :=
  ⟨(C4_metadata_max_mb_bound 1024).1 (by decide),
   (C4_metadata_max_mb_bound 1025).2.1 (by decide)⟩

/-- Claim C5: an absent load_plugins key retains every declared plugin in
declaration order; a present key (even an empty sequence) retains exactly
the declared plugins whose name is in the allow-list, dropping the others
without error.  Concretely, with load_plugins=["a"] and declared plugins
a,b only a survives. -/
theorem C5_plugin_allow_list (allow : List String) (plugins : List plugin_config) :
    filter_plugin_configs none plugins = plugins ∧
    filter_plugin_configs (some allow) plugins =
      plugins.filter (fun p => allow.contains p.m_name) ∧
    filter_plugin_configs (some ["a"])
      [(⟨"a", "", "", ""⟩ : plugin_config), ⟨"b", "", "", ""⟩] = [⟨"a", "", "", ""⟩] ∧
    filter_plugin_configs (some [])
      [(⟨"a", "", "", ""⟩ : plugin_config), ⟨"b", "", "", ""⟩] = [] ∧
    filter_plugin_configs none [(⟨"a", "", "", ""⟩ : plugin_config), ⟨"b", "", "", ""⟩] =
      [⟨"a", "", "", ""⟩, ⟨"b", "", "", ""⟩] := by
  refine ⟨?_, ?_, by decide, by decide, by decide⟩
  · simp [filter_plugin_configs]
  · simp [filter_plugin_configs]

theorem file_output_sink_names {c : yaml_configuration} {l : List outputs_config}
    (h : file_output_sink c = .ok l) : ∀ x ∈ l, x.name = "file" := by
  unfold file_output_sink at h
  split at h
  · dsimp only at h
    split at h
    · exact absurd h (by simp)
    · simp only [Except.ok.injEq] at h
      subst h
      intro x hx
      rw [List.mem_singleton] at hx
      subst hx
      rfl
  · simp only [Except.ok.injEq] at h
    subst h
    intro x hx
    exact absurd hx (List.not_mem_nil x)

theorem program_output_sink_names {c : yaml_configuration} {l : List outputs_config}
    (h : program_output_sink c = .ok l) : ∀ x ∈ l, x.name = "program" := by
  unfold program_output_sink at h
  split at h
  · dsimp only at h
    split at h
    · exact absurd h (by simp)
    · simp only [Except.ok.injEq] at h
      subst h
      intro x hx
      rw [List.mem_singleton] at hx
      subst hx
      rfl
  · simp only [Except.ok.injEq] at h
    subst h
    intro x hx
    exact absurd hx (List.not_mem_nil x)

theorem http_output_sink_names {c : yaml_configuration} {l : List outputs_config}
    (h : http_output_sink c = .ok l) : ∀ x ∈ l, x.name = "http" := by
  unfold http_output_sink at h
  split at h
  · dsimp only at h
    split at h
    · exact absurd h (by simp)
    · simp only [Except.ok.injEq] at h
      subst h
      intro x hx
      rw [List.mem_singleton] at hx
      subst hx
      rfl
  · simp only [Except.ok.injEq] at h
    subst h
    intro x hx
    exact absurd hx (List.not_mem_nil x)

theorem stdout_output_sink_names {c : yaml_configuration} :
    ∀ x ∈ stdout_output_sink c, x.name = "stdout" := by
  unfold stdout_output_sink
  split
  · intro x hx
    rw [List.mem_singleton] at hx
    subst hx
    rfl
  · intro x hx
    exact absurd hx (List.not_mem_nil x)

theorem syslog_output_sink_names {c : yaml_configuration} :
    ∀ x ∈ syslog_output_sink c, x.name = "syslog" := by
  unfold syslog_output_sink
  split
  · intro x hx
    rw [List.mem_singleton] at hx
    subst hx
    rfl
  · intro x hx
    exact absurd hx (List.not_mem_nil x)

theorem grpc_output_sink_mem_iff (c : yaml_configuration) :
    (⟨"grpc", []⟩ : outputs_config) ∈ grpc_output_sink c ↔
      (get_scalar_bool c "grpc_output.enabled" true &&
        get_scalar_bool c "grpc.enabled" false) = true := by
  unfold grpc_output_sink
  split
  · rename_i hcond
    simp [hcond]
  · rename_i hcond
    simp [hcond]

/-- Claim C6: when each of the six sink evaluations contributed nothing,
the resolver throws the no-outputs configuration error; when the combined
sink list is non-empty the check passes and the list is returned. -/
theorem C6_no_outputs_error (c : yaml_configuration) :
    (file_output_sink c = .ok [] → stdout_output_sink c = [] → syslog_output_sink c = [] →
      program_output_sink c = .ok [] → http_output_sink c = .ok [] → grpc_output_sink c = [] →
      build_outputs c = .error .no_outputs) ∧
    (∀ l1 l4 l5, file_output_sink c = .ok l1 → program_output_sink c = .ok l4 →
      http_output_sink c = .ok l5 →
      l1 ++ stdout_output_sink c ++ syslog_output_sink c ++ l4 ++ l5 ++ grpc_output_sink c ≠
        [] →
      build_outputs c = .ok (l1 ++ stdout_output_sink c ++ syslog_output_sink c ++ l4 ++ l5 ++
        grpc_output_sink c)) := by
  constructor
  · intro h1 h2 h3 h4 h5 h6
    simp [build_outputs, h1, h2, h3, h4, h5, h6]
  · intro l1 l4 l5 h1 h4 h5 hne
    simp only [build_outputs, h1, h4, h5]
    rw [if_neg]
    simpa [List.length_eq_zero] using hne

/-- Witness for C6: the default document enables no sink, so resolution
fails with the no-outputs error; its hypotheses all hold by computation. -/
theorem C6_no_outputs_error_witness :
    build_outputs default_yaml = .error .no_outputs :=
  (C6_no_outputs_error default_yaml).1 rfl rfl rfl rfl rfl rfl

/-- Claim C7: in any successful sink resolution, the grpc sink is in the
output list exactly when the per-sink grpc_output.enabled flag (default
true) and the global grpc.enabled flag (default false) are both true. -/
theorem C7_grpc_sink_iff (c : yaml_configuration) (l : List outputs_config)
    (h : build_outputs c = .ok l) :
    ((⟨"grpc", []⟩ : outputs_config) ∈ l ↔
      (get_scalar_bool c "grpc_output.enabled" true = true ∧
        get_scalar_bool c "grpc.enabled" false = true)) := by
  unfold build_outputs at h
  cases h1 : file_output_sink c with
  | error e => rw [h1] at h; exact absurd h (by simp)
  | ok l1 =>
    rw [h1] at h
    cases h4 : program_output_sink c with
    | error e => rw [h4] at h; exact absurd h (by simp)
    | ok l4 =>
      rw [h4] at h
      cases h5 : http_output_sink c with
      | error e => rw [h5] at h; exact absurd h (by simp)
      | ok l5 =>
        rw [h5] at h
        simp only at h
        split at h
        · exact absurd h (by simp)
        · simp only [Except.ok.injEq] at h
          subst h
          rw [← Bool.and_eq_true, ← grpc_output_sink_mem_iff]
          simp only [List.mem_append]
          constructor
          · rintro (((((hg | hg) | hg) | hg) | hg) | hg)
            · exact absurd (file_output_sink_names h1 _ hg) (by decide)
            · exact absurd (stdout_output_sink_names _ hg) (by decide)
            · exact absurd (syslog_output_sink_names _ hg) (by decide)
            · exact absurd (program_output_sink_names h4 _ hg) (by decide)
            · exact absurd (http_output_sink_names h5 _ hg) (by decide)
            · exact hg
          · intro hg
            exact Or.inr hg

/-- Witness for C7: with only stdout enabled, resolution succeeds with a
single stdout sink, and the equivalence shows the grpc sink is absent
because the global grpc.enabled flag defaults to false. -/
theorem C7_grpc_sink_iff_witness :
    ((⟨"grpc", []⟩ : outputs_config) ∈ [(⟨"stdout", []⟩ : outputs_config)] ↔
      (get_scalar_bool stdout_only_yaml "grpc_output.enabled" true = true ∧
        get_scalar_bool stdout_only_yaml "grpc.enabled" false = true)) :=
  C7_grpc_sink_iff stdout_only_yaml [⟨"stdout", []⟩] (by decide)

theorem split_eq_none_iff (d : Char) (s : List Char) : split s d = none ↔ d ∉ s := by
  induction s with
  | nil => simp [split]
  | cons c cs ih =>
    by_cases hc : c = d
    · subst hc
      simp [split]
    · simp only [split, if_neg hc, Option.map_eq_none', ih, List.mem_cons]
      constructor
      · intro h hmem
        rcases hmem with h1 | h1
        · exact hc h1.symm
        · exact h h1
      · intro h h1
        exact h (Or.inr h1)

theorem split_at_first_delim (d : Char) (v : List Char) :
    ∀ (k : List Char), d ∉ k → split (k ++ d :: v) d = some (k, v) := by
  intro k
  induction k with
  | nil => simp [split]
  | cons c k ih =>
    intro h
    have hc : c ≠ d := fun hcd => h (hcd ▸ List.mem_cons_self c k)
    rw [List.cons_append]
    simp only [split, if_neg hc, ih (fun hm => h (List.mem_cons_of_mem _ hm))]
    rfl

/-- Claim C3: every override containing an equals sign is split at its
first occurrence into a path and a value and written into the raw document
in the order given, so the later of two overrides of the same path wins;
the first override containing no equals sign aborts with the
malformed-option error identifying it. -/
theorem C3_override_application :
    (∀ (d : raw_document) (pre : List (List Char)) (o : List Char) (post : List (List Char)),
      (∀ p ∈ pre, '=' ∈ p) → '=' ∉ o →
      init_cmdline_options d (pre ++ o :: post) = .error (.malformed_option o)) ∧
    (∀ (k v : List Char), '=' ∉ k → split (k ++ '=' :: v) '=' = some (k, v)) ∧
    (∀ (d : raw_document) (k v1 v2 : List Char), '=' ∉ k →
      (init_cmdline_options d [k ++ '=' :: v1, k ++ '=' :: v2]).map (fun doc => doc k) =
        .ok (some v2)) := by
  refine ⟨?_, fun k v hk => split_at_first_delim '=' v k hk, ?_⟩
  · intro d pre
    induction pre generalizing d with
    | nil =>
      intro o post _ ho
      simp only [List.nil_append, init_cmdline_options, set_cmdline_option,
        (split_eq_none_iff '=' o).mpr ho]
    | cons p ps ih =>
      intro o post hpre ho
      have hp : '=' ∈ p := hpre p (List.mem_cons_self p ps)
      obtain ⟨kv, hkv⟩ : ∃ kv, split p '=' = some kv := by
        rcases hsp : split p '=' with _ | kv
        · exact absurd ((split_eq_none_iff '=' p).mp hsp) (not_not_intro hp)
        · exact ⟨kv, rfl⟩
      rw [List.cons_append]
      simp only [init_cmdline_options, set_cmdline_option, hkv]
      exact ih (set_scalar d kv.1 kv.2) o post (fun q hq => hpre q (List.mem_cons_of_mem _ hq))
        ho
  · intro d k v1 v2 hk
    have e1 : set_cmdline_option d (k ++ '=' :: v1) = .ok (set_scalar d k v1) := by
      simp only [set_cmdline_option, split_at_first_delim '=' v1 k hk]
    have e2 : set_cmdline_option (set_scalar d k v1) (k ++ '=' :: v2) =
        .ok (set_scalar (set_scalar d k v1) k v2) := by
      simp only [set_cmdline_option, split_at_first_delim '=' v2 k hk]
    unfold init_cmdline_options
    rw [e1]
    unfold init_cmdline_options
    rw [e2]
    unfold init_cmdline_options
    simp [set_scalar, Except.map]

/-- Witness for C3 at concrete override lists. -/
theorem C3_override_application_witness :
    init_cmdline_options empty_document ["a=1".data, "log_level".data] =
      .error (.malformed_option "log_level".data) ∧
    split ("log_level".data ++ '=' :: "debug".data) '=' =
      some ("log_level".data, "debug".data) ∧
    (init_cmdline_options empty_document
        ["k".data ++ '=' :: "1".data, "k".data ++ '=' :: "2".data]).map
      (fun doc => doc "k".data) = .ok (some "2".data) :=
  ⟨C3_override_application.1 empty_document ["a=1".data] "log_level".data [] (by decide)
    (by decide),
   C3_override_application.2.1 "log_level".data "debug".data (by decide),
   C3_override_application.2.2 empty_document "k".data "1".data "2".data (by decide)⟩

/-- Claim C9: the override splitter rejects an entry exactly when it holds
no equals sign at all; an entry with a leading equals sign is accepted and
writes the value at the empty path, and an entry with a trailing equals
sign is accepted and writes the empty value at its path. -/
theorem C9_split_only_rejects_missing_equals :
    (∀ (d : raw_document) (s : List Char),
      set_cmdline_option d s = .error (.malformed_option s) ↔ '=' ∉ s) ∧
    (∀ (d : raw_document) (v : List Char),
      set_cmdline_option d ('=' :: v) = .ok (set_scalar d [] v)) ∧
    (∀ (d : raw_document) (k : List Char), '=' ∉ k →
      set_cmdline_option d (k ++ ['=']) = .ok (set_scalar d k [])) := by
  refine ⟨?_, ?_, ?_⟩
  · intro d s
    rcases hsp : split s '=' with _ | kv
    · simp only [set_cmdline_option, hsp]
      simp [(split_eq_none_iff '=' s).mp hsp]
    · simp only [set_cmdline_option, hsp]
      have hmem : '=' ∈ s := by
        by_contra hn
        rw [← split_eq_none_iff '=' s] at hn
        rw [hn] at hsp
        exact Option.noConfusion hsp
      simp [hmem]
  · intro d v
    simp [set_cmdline_option, split]
  · intro d k hk
    simp only [set_cmdline_option, split_at_first_delim '=' [] k hk]

/-- Witness for C9 at concrete option strings. -/
theorem C9_split_only_rejects_missing_equals_witness :
    (set_cmdline_option empty_document "log_level".data =
      .error (.malformed_option "log_level".data) ↔ '=' ∉ "log_level".data) ∧
    set_cmdline_option empty_document ('=' :: "value".data) =
      .ok (set_scalar empty_document [] "value".data) ∧
    set_cmdline_option empty_document ("key".data ++ ['=']) =
      .ok (set_scalar empty_document "key".data []) :=
  ⟨C9_split_only_rejects_missing_equals.1 empty_document "log_level".data,
   C9_split_only_rejects_missing_equals.2.1 empty_document "value".data,
   C9_split_only_rejects_missing_equals.2.2 empty_document "key".data (by decide)⟩

/-- Claim C8: a configured rules-file entry whose `stat` fails contributes
nothing and raises no error — resolution of the remaining entries is
unchanged. -/
theorem C8_nonexistent_entry_skipped (fs : filesystem) (pre post : List String) (f : String)
    (h : fs.stat f = none) :
    load_rules_filenames fs (pre ++ f :: post) = load_rules_filenames fs (pre ++ post) := by
  unfold load_rules_filenames
  suffices hgen : ∀ (pre fns : List String),
      load_rules_filenames_loop fs (pre ++ f :: post) fns =
        load_rules_filenames_loop fs (pre ++ post) fns from hgen pre []
  intro pre
  induction pre with
  | nil =>
    intro fns
    simp only [List.nil_append, load_rules_filenames_loop, h, Option.isSome_none,
      Bool.false_eq_true, if_false]
  | cons q qs ih =>
    intro fns
    rw [List.cons_append, List.cons_append]
    cases hq : (fs.stat q).isSome with
    | false => simp only [load_rules_filenames_loop, hq, Bool.false_eq_true, if_false, ih fns]
    | true =>
      simp only [load_rules_filenames_loop, hq, if_true]
      cases hr : read_rules_file_directory fs q fns with
      | none => rfl
      | some fns' => exact ih fns'

/-- Witness for C8: the entry "missing" does not exist in
`fs_socket_direct`, so it is skipped between the two existing entries. -/
theorem C8_nonexistent_entry_skipped_witness :
    load_rules_filenames fs_socket_direct ["f", "missing", "f"] =
      load_rules_filenames fs_socket_direct ["f", "f"] :=
  C8_nonexistent_entry_skipped fs_socket_direct ["f"] ["f"] "missing" (by decide)

theorem scan_dir_entries_filter (fs : filesystem) (path : String) (ents : List String) :
    ∀ (l : List String), scan_dir_entries fs path ents = some l →
      l = (ents.filter
          (fun n => ((fs.stat (path ++ "/" ++ n)).getD 0 &&& S_IFREG) != 0)).map
        (fun n => path ++ "/" ++ n) := by
  induction ents with
  | nil =>
    intro l h
    simp only [scan_dir_entries, Option.some.injEq] at h
    simp [← h]
  | cons n ns ih =>
    intro l h
    unfold scan_dir_entries at h
    cases hstat : fs.stat (path ++ "/" ++ n) with
    | none => rw [hstat] at h; exact Option.noConfusion h
    | some m =>
      rw [hstat] at h
      cases hrec : scan_dir_entries fs path ns with
      | none => rw [hrec] at h; exact Option.noConfusion h
      | some rest =>
        rw [hrec] at h
        simp only [Option.some.injEq] at h
        subst h
        by_cases hreg : m &&& S_IFREG ≠ 0
        · have hp : ((fs.stat (path ++ "/" ++ n)).getD 0 &&& S_IFREG != 0) = true := by
            rw [hstat]
            simpa using hreg
          simp [List.filter_cons, hp, if_pos hreg, ih rest hrec]
        · have hp : ((fs.stat (path ++ "/" ++ n)).getD 0 &&& S_IFREG != 0) = false := by
            rw [hstat]
            simpa using hreg
          simp [List.filter_cons, hp, if_neg hreg, ih rest hrec]

/-- Claim C2 counterexample: in `fs_socket_dir` the directory "d" holds one
regular file "d/a" and one unix socket "d/s" (mode 0o140755, not a regular
file under the POSIX S_ISREG test), yet the resolver's output for "d"
includes "d/s": the source's filter `st_mode & S_IFREG` accepts sockets
because `S_IFSOCK` shares the `S_IFREG` bit, so the output is not
restricted to regular files. -/
theorem C2_counterexample :
    read_rules_file_directory fs_socket_dir "d" [] = some ["d/a", "d/s"] ∧
    fs_socket_dir.stat "d/s" = some 0o140755 ∧
    ¬ S_ISREG 0o140755 ∧
    "d/s" ∈ ["d/a", "d/s"] :=
  ⟨by decide, by decide, by decide, by decide⟩

/-- Claim C2 amended: for a configured entry that exists, passes the
source's directory-bit test and scans without error, the resolver appends
exactly the immediate entries whose mode has the `S_IFREG` bit set — the
regular files and also sockets — as full paths sorted lexicographically,
inlined right after the already accumulated list. -/
theorem C2_directory_expansion (fs : filesystem) (path : String) (acc : List String)
    (st : Nat) (ents l : List String)
    (hstat : fs.stat path = some st) (hdir : st &&& S_IFDIR ≠ 0)
    (hrd : fs.readdir path = some ents) (hscan : scan_dir_entries fs path ents = some l) :
    read_rules_file_directory fs path acc = some (acc ++ List.insertionSort path_le l) ∧
    l = (ents.filter
        (fun n => ((fs.stat (path ++ "/" ++ n)).getD 0 &&& S_IFREG) != 0)).map
      (fun n => path ++ "/" ++ n) ∧
    (List.insertionSort path_le l).Perm l ∧
    List.Sorted path_le (List.insertionSort path_le l) := by
  refine ⟨?_, scan_dir_entries_filter fs path ents l hscan, List.perm_insertionSort _ _,
    List.sorted_insertionSort _ _⟩
  simp [read_rules_file_directory, hstat, hrd, hscan, hdir]

/-- Witness for C2 at the concrete directory "d" of `fs_socket_dir`. -/
theorem C2_directory_expansion_witness :
    read_rules_file_directory fs_socket_dir "d" [] =
      some ([] ++ List.insertionSort path_le ["d/s", "d/a"]) ∧
    ["d/s", "d/a"] = (([".", "..", "s", "a"].filter
        (fun n => ((fs_socket_dir.stat ("d" ++ "/" ++ n)).getD 0 &&& S_IFREG) != 0)).map
      (fun n => "d" ++ "/" ++ n)) ∧
    (List.insertionSort path_le ["d/s", "d/a"]).Perm ["d/s", "d/a"] ∧
    List.Sorted path_le (List.insertionSort path_le ["d/s", "d/a"]) :=
  C2_directory_expansion fs_socket_dir "d" [] 0o040755 [".", "..", "s", "a"] ["d/s", "d/a"]
    (by decide) (by decide) (by decide) (by decide)

/-- Claim C10 counterexample: in `fs_socket_direct` the path "s" exists and
is a unix socket (mode 0o140755) — not a directory under the POSIX S_ISDIR
test — yet it is not appended unchanged: `S_IFSOCK` shares the `S_IFDIR`
bit, so the source takes the directory branch, `opendir` fails, and the
process terminates (modelled as `none`). -/
theorem C10_counterexample :
    fs_socket_direct.stat "s" = some 0o140755 ∧
    ¬ S_ISDIR 0o140755 ∧
    read_rules_file_directory fs_socket_direct "s" [] = none ∧
    read_rules_file_directory fs_socket_direct "s" [] ≠ some ["s"] :=
  ⟨by decide, by decide, by decide, by decide⟩

/-- Claim C10 amended: a configured entry that exists and whose mode lacks
the `S_IFDIR` bit — which covers regular files, FIFOs and character
devices, but not sockets or block devices — is appended unchanged, with no
regular-file check. -/
theorem C10_non_directory_included (fs : filesystem) (p : String) (acc : List String) (st : Nat)
    (hstat : fs.stat p = some st) (hnd : st &&& S_IFDIR = 0) :
    read_rules_file_directory fs p acc = some (acc ++ [p]) := by
  simp [read_rules_file_directory, hstat, hnd]

/-- Witness for C10: the FIFO "f" (mode 0o010644, not a regular file) is
still appended unchanged. -/
theorem C10_non_directory_included_witness :
    read_rules_file_directory fs_socket_direct "f" [] = some ([] ++ ["f"]) :=
  C10_non_directory_included fs_socket_direct "f" [] 0o010644 (by decide) (by decide)

end Falco
